import Mathlib

/-!
Verification of the pronunciation evaluation and feedback core of the
english-speaking-app repository.

The Python sources are shallowly embedded:

* `ai-core/scripts/evaluate.py` — corpus metrics (`calculate_gop_metrics`,
  `calculate_phoneme_accuracy`, `calculate_word_error_rate`,
  `generate_error_analysis`);
* `apps/backend/src/services/pronunciation.py` — `PronunciationService`
  (`_calculate_scores`, `_generate_feedback`);
* `mcp/src/tools.py` — `get_phoneme_feedback_tool`.

Conventions of the embedding:

* Python floats are modelled as exact rationals (`ℚ`); decimal literals such
  as `0.95` denote the exact rational value of the literal.
* numpy's NaN results (undefined means and correlations) are modelled with
  `Option`: `none` stands for NaN.  numpy emits warnings for these inputs but
  raises no exception, so the embedded functions are total.
* Pearson correlation and RMSE involve square roots, which are irrational in
  general; the correlation is represented by the exact pair
  (covariance sum, product of the two variance sums) — the float value is
  `num / √den` — and RMSE by its square (the mean squared error), which
  determines it.  No claim below depends on the value under the square root.
* Python `dict`s keep insertion order; they are modelled as association
  lists, with updates in place and new keys appended (`bump`).
* Python's stable `sorted` is modelled by `List.mergeSort`, which is likewise
  a stable sort for the same comparator.
* Apostrophes occurring inside the Vietnamese tip string literals of the
  source are elided in the embedded literals; no claim depends on the exact
  text of a tip, only on the identity of the entries.
-/

/-! ## evaluate.py : word error rate -/

/-- `s.lower().split()` — lowercase, then split on whitespace, dropping the
empty chunks (Python `str.split()` with no separator). -/
def tokenize (s : String) : List String :=
  (s.toLower.split fun c => c.isWhitespace).filter fun w => decide (w ≠ "")

/-- The dynamic-programming table of `calculate_word_error_rate`
(evaluate.py lines 119–132): `wer_dp refW hypW i j` is `dp[i][j]`, built with
`dp[i][0] = i`, `dp[0][j] = j`, and for `i, j ≥ 1` comparing
`ref_words[i-1]` with `hyp_words[j-1]` (out-of-range indices never occur for
the arguments the code uses; `getD` totalises them with `""`). -/
def wer_dp (refW hypW : List String) : ℕ → ℕ → ℕ
  | 0, j => j
  | i + 1, 0 => i + 1
  | i + 1, j + 1 =>
    if refW.getD i "" = hypW.getD j "" then
      wer_dp refW hypW i j
    else
      1 + min (wer_dp refW hypW i (j + 1)) (min (wer_dp refW hypW (i + 1) j) (wer_dp refW hypW i j))
termination_by i j => i + j

/-- The two accumulators `total_wer : float` and `total_words : int` of
`calculate_word_error_rate` after the loop over `zip(hypotheses, references)`. -/
def wer_totals (hypotheses references : List String) : ℚ × ℕ :=
  (hypotheses.zip references).foldl
    (fun acc hr =>
      (acc.1 + (wer_dp (tokenize hr.2) (tokenize hr.1) (tokenize hr.2).length (tokenize hr.1).length : ℕ),
       acc.2 + (tokenize hr.2).length))
    ((0 : ℚ), (0 : ℕ))

/-- `calculate_word_error_rate` (evaluate.py lines 101–137):
`total_wer / total_words if total_words > 0 else 0.0`. -/
def calculate_word_error_rate (hypotheses references : List String) : ℚ :=
  if (wer_totals hypotheses references).2 > 0 then
    (wer_totals hypotheses references).1 / ((wer_totals hypotheses references).2 : ℚ)
  else 0

/-! ## evaluate.py : phoneme accuracy -/

/-- The accumulators `total_correct` and `total_phonemes` of
`calculate_phoneme_accuracy`: per pair, positional matches over the first
`min` positions, and the full ground-truth length. -/
def pa_totals (predicted_phonemes ground_truth_phonemes : List (List String)) : ℕ × ℕ :=
  (predicted_phonemes.zip ground_truth_phonemes).foldl
    (fun acc pg =>
      (acc.1 +
        ((pg.1.take (min pg.1.length pg.2.length)).zip
          (pg.2.take (min pg.1.length pg.2.length))).countP fun x => decide (x.1 = x.2),
       acc.2 + pg.2.length))
    ((0 : ℕ), (0 : ℕ))

/-- `calculate_phoneme_accuracy` (evaluate.py lines 85–98):
`total_correct / total_phonemes if total_phonemes > 0 else 0.0`. -/
def calculate_phoneme_accuracy (predicted_phonemes ground_truth_phonemes : List (List String)) : ℚ :=
  if (pa_totals predicted_phonemes ground_truth_phonemes).2 > 0 then
    ((pa_totals predicted_phonemes ground_truth_phonemes).1 : ℚ) /
      ((pa_totals predicted_phonemes ground_truth_phonemes).2 : ℚ)
  else 0

/-! ## evaluate.py : GOP metrics -/

/-- `np.mean` over a list: NaN (`none`) on an empty array. -/
def npMean (l : List ℚ) : Option ℚ :=
  if l.length = 0 then none else some (l.sum / (l.length : ℚ))

/-- `np.corrcoef(xs, ys)[0, 1]` in exact form.  The float value is
`num / √(vx * vy)` where `num = Σ (xᵢ - x̄)(yᵢ - ȳ)`, `vx = Σ (xᵢ - x̄)²`,
`vy = Σ (yᵢ - ȳ)²`; it is NaN (`none`) exactly when `vx * vy = 0`, which
includes arrays with fewer than 2 points and constant arrays.  numpy only
warns in that case and produces NaN; no exception is raised. -/
def corr_rep (xs ys : List ℚ) : Option (ℚ × ℚ) :=
  let xbar := xs.sum / (xs.length : ℚ)
  let ybar := ys.sum / (ys.length : ℚ)
  let num := ((xs.zip ys).map fun p => (p.1 - xbar) * (p.2 - ybar)).sum
  let vx := (xs.map fun x => (x - xbar) ^ 2).sum
  let vy := (ys.map fun y => (y - ybar) ^ 2).sum
  if vx * vy = 0 then none else some (num, vx * vy)

/-- Result record of `calculate_gop_metrics`.  `rmse_sq` is the square of the
reported RMSE (the mean squared error), which determines it. -/
structure GopMetrics where
  correlation : Option (ℚ × ℚ)
  mae : Option ℚ
  rmse_sq : Option ℚ
deriving DecidableEq, Repr

/-- `calculate_gop_metrics` (evaluate.py lines 59–82).  It unconditionally
returns the metrics dictionary; degenerate inputs make the correlation (and,
for empty arrays, the means) NaN, modelled by `none`. -/
def calculate_gop_metrics (predicted_scores ground_truth_scores : List ℚ) : GopMetrics :=
  { correlation := corr_rep predicted_scores ground_truth_scores
    mae := npMean ((predicted_scores.zip ground_truth_scores).map fun p => |p.1 - p.2|)
    rmse_sq := npMean ((predicted_scores.zip ground_truth_scores).map fun p => (p.1 - p.2) ^ 2) }

/-- An array on which the Pearson correlation degenerates because it is
constant (this also covers singleton arrays). -/
def IsConstantList (l : List ℚ) : Prop :=
  ∀ a ∈ l, ∀ b ∈ l, a = b

instance (l : List ℚ) : Decidable (IsConstantList l) := by
  unfold IsConstantList; infer_instance

/-! ## evaluate.py : error analysis -/

/-- `phoneme_errors[error_key] = phoneme_errors.get(error_key, 0) + 1` on an
insertion-ordered dict: update the existing entry in place, or append a new
key with count 1. -/
def bump : List (String × ℕ) → String → List (String × ℕ)
  | [], k => [(k, 1)]
  | (k', c) :: t, k => if k' = k then (k', c + 1) :: t else (k', c) :: bump t k

/-- `f"{g}->{p}"` — the confusion key, ground-truth symbol first. -/
def error_key (g p : String) : String := g ++ "->" ++ p

/-- The `phoneme_errors` dict of `generate_error_analysis` after the loops:
for each record pair, for every position of `zip(pred_phonemes, gt_phonemes)`
where the symbols differ, bump the key `f"{g}->{p}"`.  (Each record is
modelled by its `"phonemes"` field, the only one the function reads.) -/
def phoneme_error_tally (predictions ground_truths : List (List String)) : List (String × ℕ) :=
  (predictions.zip ground_truths).foldl
    (fun acc pg =>
      (pg.1.zip pg.2).foldl
        (fun acc2 x => if x.1 ≠ x.2 then bump acc2 (error_key x.2 x.1) else acc2)
        acc)
    []

/-- The comparator of `sorted(phoneme_errors.items(), key=lambda x: -x[1])`:
descending count; Python `sorted` is stable, as is `List.mergeSort`. -/
def count_desc (a b : String × ℕ) : Bool := decide (b.2 ≤ a.2)

/-- Result record of `generate_error_analysis`. -/
structure ErrorAnalysis where
  vietnamese_specific : List (String × ℕ)
  top_phoneme_errors : List (String × ℕ)
deriving DecidableEq, Repr

/-- `generate_error_analysis` (evaluate.py lines 176–213): the four
pre-registered Vietnamese-specific counters (initialised to 0 and never
incremented), and the 10 most frequent phoneme confusions. -/
def generate_error_analysis (predictions ground_truths : List (List String)) : ErrorAnalysis :=
  { vietnamese_specific :=
      [("th_errors", 0), ("r_errors", 0), ("final_consonant_errors", 0), ("vowel_length_errors", 0)]
    top_phoneme_errors :=
      ((phoneme_error_tally predictions ground_truths).mergeSort count_desc).take 10 }

/-- The count stored in the tally for a key (0 when absent): the first
entry whose key matches, as `dict.get` reads it. -/
def lookup_count : List (String × ℕ) → String → ℕ
  | [], _ => 0
  | (a, c) :: t, k => if a = k then c else lookup_count t k

/-- Number of positional mismatches across the corpus whose formatted
confusion key is `k`. -/
def mismatch_count (predictions ground_truths : List (List String)) (k : String) : ℕ :=
  ((predictions.zip ground_truths).map fun pg =>
    (pg.1.zip pg.2).countP fun x => decide (x.1 ≠ x.2 ∧ error_key x.2 x.1 = k)).sum

/-! ## pronunciation.py : score synthesis -/

/-- Python's `round` to an integer: round half to even (banker's rounding),
in exact rational arithmetic. -/
def py_round (q : ℚ) : ℤ :=
  if q - ⌊q⌋ = 1 / 2 then (if 2 ∣ ⌊q⌋ then ⌊q⌋ else ⌊q⌋ + 1) else round q

/-- Python's `round(q, 1)`. -/
def py_round1 (q : ℚ) : ℚ := (py_round (10 * q) : ℚ) / 10

/-- The dataclass `PronunciationScore`. -/
structure PronunciationScore where
  overall : ℚ
  accuracy : ℚ
  fluency : ℚ
  completeness : ℚ
deriving DecidableEq, Repr

/-- `PronunciationService._calculate_scores` (pronunciation.py lines
138–169), from the similarity ratio onward.  The similarity itself is
produced by `difflib.SequenceMatcher(...).ratio()` over the two texts — an
external collaborator producing a value in `[0, 1]` — and is taken here as
the input.  `overall = similarity * 100` is computed unrounded, `accuracy`
and `fluency` are scaled from it, and all four fields are rounded to one
decimal place in the constructor. -/
def calculate_scores (similarity : ℚ) : PronunciationScore :=
  { overall := py_round1 (similarity * 100)
    accuracy := py_round1 (similarity * 100 * 0.95)
    fluency := py_round1 (similarity * 100 * 0.9)
    completeness := py_round1 (similarity * 100) }

/-! ## pronunciation.py : feedback generation -/

/-- The dataclass `PhonemeResult`. -/
structure PhonemeResult where
  phoneme : String
  score : ℚ
  expected : String
  actual : String
  suggestion : Option String
deriving DecidableEq, Repr

/-- The dataclass `PronunciationFeedback`; `vietnamese_interference` is
`Optional` (`none` models Python `None`). -/
structure PronunciationFeedback where
  phonemes : List PhonemeResult
  suggestions : List String
  vietnamese_interference : Option (List String)
deriving DecidableEq, Repr

/-- Python's `str.lower()`, modelled per character (`Char.toLower`; agrees
with Python on ASCII text). -/
def str_lower (s : String) : String := String.mk (s.data.map Char.toLower)

/-- Python's substring test `pat in s`. -/
def str_contains (s pat : String) : Bool := decide (pat.toList <:+: s.toList)

/-- The `"th"` entry of the `vietnamese_issues` dict. -/
def vietnamese_issue_th : String :=
  "Người Việt thường phát âm th như t. Hãy đặt lưỡi giữa hai hàm răng."

/-- The `vietnamese_issues` dict literal of `_generate_feedback`
(pronunciation.py lines 184–189); only the `"th"` entry is ever looked up. -/
def vietnamese_issues : List (String × String) :=
  [("th", vietnamese_issue_th),
   ("s", "Âm s cuối từ cần rõ ràng, đừng bỏ qua."),
   ("ed", "Đuôi -ed có 3 cách phát âm: /t/, /d/, /ɪd/"),
   ("r", "Âm r trong tiếng Anh khác với tiếng Việt. Uốn cong lưỡi về phía sau.")]

/-- `PronunciationService._generate_feedback` (pronunciation.py lines
171–205).  `phonemes` stays the empty list; two threshold-driven suggestions;
`vietnamese_interference` collects the `"th"` tip when the lowercased
reference contains `"th"`, and is `None` when the collected list is empty.
The `transcription` parameter is accepted and unused, as in the source. -/
def generate_feedback (reference_text _transcription : String)
    (score : PronunciationScore) : PronunciationFeedback :=
  let suggestions :=
    (if score.overall < 70 then ["Hãy nói chậm hơn và rõ ràng hơn."] else []) ++
    (if score.fluency < 60 then ["Cố gắng nói liền mạch, không ngắt quãng giữa các từ."] else [])
  let vietnamese_interference :=
    if str_contains (str_lower reference_text) "th" then [vietnamese_issue_th] else []
  { phonemes := []
    suggestions := suggestions
    vietnamese_interference :=
      if vietnamese_interference = [] then none else some vietnamese_interference }

/-! ## tools.py : phoneme feedback tool -/

/-- An entry of the `vietnamese_interference` rule dict in
`get_phoneme_feedback_tool`. -/
structure InterferencePattern where
  ipa : String
  common_error : String
  tip : String
  examples : List String
deriving DecidableEq, Repr

/-- The `"th"` rule (tools.py lines 120–125). -/
def mcp_th_pattern : InterferencePattern :=
  { ipa := "θ"
    common_error := "t or s"
    tip := "Âm th không có trong tiếng Việt. Đặt đầu lưỡi giữa hai hàm răng và thổi hơi nhẹ."
    examples := ["think → tink (sai)", "three → tree (sai)"] }

/-- The `"r"` rule (tools.py lines 126–131). -/
def mcp_r_pattern : InterferencePattern :=
  { ipa := "ɹ"
    common_error := "l or ɾ"
    tip := "Âm r tiếng Anh khác tiếng Việt. Uốn cong lưỡi về phía sau, không chạm vào nơi nào."
    examples := ["red → led (sai)", "right → light (sai)"] }

/-- The `"final_consonants"` rule (tools.py lines 132–137), appended
unconditionally ("Always include final consonants tip"). -/
def mcp_final_consonants_pattern : InterferencePattern :=
  { ipa := "various"
    common_error := "dropping"
    tip := "Người Việt hay bỏ âm cuối. Hãy phát âm rõ ràng các phụ âm cuối như -t, -d, -s."
    examples := ["cat → ca (sai)", "dogs → dog (sai)"] }

/-- The `"short_vowels"` rule (tools.py lines 138–143); declared but never
selected by the trigger checks. -/
def mcp_short_vowels_pattern : InterferencePattern :=
  { ipa := "ɪ, ʊ, æ"
    common_error := "lengthening"
    tip := "Phân biệt nguyên âm ngắn và dài. ship khác sheep."
    examples := ["ship vs sheep", "full vs fool"] }

/-- The `relevant_tips` list of `get_phoneme_feedback_tool` (tools.py lines
146–156): the `"th"` and `"r"` rules when triggered by a substring of the
lowercased text, then always the final-consonants rule. -/
def mcp_relevant_tips (text : String) : List InterferencePattern :=
  (if str_contains (str_lower text) "th" then [mcp_th_pattern] else []) ++
  (if str_contains (str_lower text) "r" then [mcp_r_pattern] else []) ++
  [mcp_final_consonants_pattern]

/-- The result dict of `get_phoneme_feedback_tool` (tools.py lines 158–168),
before JSON serialisation. -/
structure PhonemeFeedbackResult where
  text : String
  phoneme_count : ℕ
  vietnamese_specific_tips : List InterferencePattern
  practice_suggestions : List String
deriving DecidableEq, Repr

/-- `get_phoneme_feedback_tool` (tools.py lines 104–170). -/
def get_phoneme_feedback_tool (text : String) : PhonemeFeedbackResult :=
  { text := text
    phoneme_count := ((text.split fun c => c.isWhitespace).filter fun w => decide (w ≠ "")).length
    vietnamese_specific_tips := mcp_relevant_tips text
    practice_suggestions :=
      ["Nghe và bắt chước người bản xứ",
       "Thu âm giọng mình và so sánh",
       "Tập trung vào một âm khó tại một thời điểm"] }

/-! ## Spec-side definitions -/

/-- Spec-side unit-cost Levenshtein edit distance between two token
sequences, written from the spec's words (substitution, insertion and
deletion all cost 1). -/
def levenshteinDistance {α : Type*} [DecidableEq α] : List α → List α → ℕ
  | [], ys => ys.length
  | xs, [] => xs.length
  | x :: xs, y :: ys =>
    if x = y then levenshteinDistance xs ys
    else 1 + min (levenshteinDistance xs ys) (min (levenshteinDistance (x :: xs) ys) (levenshteinDistance xs (y :: ys)))
termination_by xs ys => xs.length + ys.length
decreasing_by all_goals simp_arith

/-- Spec-side word error rate, written from the claim: the pooled sum of
per-pair Levenshtein distances over lowercased whitespace tokens, divided by
the pooled reference word count, and `0` when that count is `0`. -/
def wordErrorRate_spec (hypotheses references : List String) : ℚ :=
  if (((hypotheses.zip references).map fun hr => (tokenize hr.2).length).sum : ℕ) = 0 then 0
  else ((((hypotheses.zip references).map fun hr =>
      levenshteinDistance (tokenize hr.2) (tokenize hr.1)).sum : ℕ) : ℚ) /
    ((((hypotheses.zip references).map fun hr => (tokenize hr.2).length).sum : ℕ) : ℚ)

/-- Spec-side phoneme accuracy, written from the claim: positional matches
over the first `min` positions of each pair (`zip` truncates to exactly that
length), pooled ground-truth length in the denominator, `0` when the
denominator is `0`. -/
def phonemeAccuracy_spec (predicted ground_truth : List (List String)) : ℚ :=
  if (((predicted.zip ground_truth).map fun pg => pg.2.length).sum : ℕ) = 0 then 0
  else ((((predicted.zip ground_truth).map fun pg =>
      (pg.1.zip pg.2).countP fun x => decide (x.1 = x.2)).sum : ℕ) : ℚ) /
    ((((predicted.zip ground_truth).map fun pg => pg.2.length).sum : ℕ) : ℚ)

/-! ## Basic lemmas about the embedded definitions -/

theorem levenshteinDistance_nil_left {α : Type*} [DecidableEq α] (ys : List α) :
    levenshteinDistance [] ys = ys.length := by
  cases ys <;> simp [levenshteinDistance]

theorem levenshteinDistance_nil_right {α : Type*} [DecidableEq α] (xs : List α) :
    levenshteinDistance xs [] = xs.length := by
  cases xs <;> simp [levenshteinDistance]

theorem levenshteinDistance_cons_cons {α : Type*} [DecidableEq α] (x y : α) (xs ys : List α) :
    levenshteinDistance (x :: xs) (y :: ys) =
      if x = y then levenshteinDistance xs ys
      else 1 + min (levenshteinDistance xs ys)
        (min (levenshteinDistance (x :: xs) ys) (levenshteinDistance xs (y :: ys))) := by
  rw [levenshteinDistance]

theorem wer_dp_zero_left (refW hypW : List String) (j : ℕ) : wer_dp refW hypW 0 j = j := by
  cases j <;> simp [wer_dp]

theorem wer_dp_zero_right (refW hypW : List String) (i : ℕ) : wer_dp refW hypW i 0 = i := by
  cases i <;> simp [wer_dp]

theorem wer_dp_succ_succ (refW hypW : List String) (i j : ℕ) :
    wer_dp refW hypW (i + 1) (j + 1) =
      if refW.getD i "" = hypW.getD j "" then wer_dp refW hypW i j
      else 1 + min (wer_dp refW hypW i (j + 1))
        (min (wer_dp refW hypW (i + 1) j) (wer_dp refW hypW i j)) := by
  rw [wer_dp]

/-- A fold that accumulates two sums componentwise is the pair of sums. -/
theorem foldl_pair_sum {α : Type*} {M N : Type*} [AddMonoid M] [AddMonoid N]
    (f : α → M) (g : α → N) :
    ∀ (l : List α) (a : M) (b : N),
      l.foldl (fun acc x => (acc.1 + f x, acc.2 + g x)) (a, b) =
        (a + (l.map f).sum, b + (l.map g).sum)
  | [], a, b => by simp
  | x :: l, a, b => by
    simp only [List.foldl_cons, List.map_cons, List.sum_cons]
    rw [foldl_pair_sum f g l (a + f x) (b + g x)]
    simp [add_assoc]

/-! ## C9 and C10: constant parts of the outputs -/

/-- C9: for every input corpus, the error analysis returns the four
pre-registered Vietnamese-specific category counters, each equal to 0 — the
categories are always present but never incremented. -/
theorem error_analysis_vietnamese_categories_zero :
    ∀ (predictions ground_truths : List (List String)),
      (generate_error_analysis predictions ground_truths).vietnamese_specific =
        [("th_errors", 0), ("r_errors", 0), ("final_consonant_errors", 0),
         ("vowel_length_errors", 0)] :=
  fun _ _ => rfl

/-- C10: for every reference text, transcription and score, the feedback
produced by the pronunciation service has an empty `phonemes` list. -/
theorem feedback_phonemes_always_empty :
    ∀ (reference_text transcription : String) (score : PronunciationScore),
      (generate_feedback reference_text transcription score).phonemes = [] :=
  fun _ _ _ => rfl

/-! ## C2: the unconditional final-consonant tip -/

/-- C2 (counterexample to the claim as stated): the backend feedback advisor
(`PronunciationService._generate_feedback`) has no "always" rule at all: at
the reference `"hello"`, which contains no triggering substring, its
interference output is `None` — it contains no final-consonant-deletion tip
(nor any other tip), refuting the claim for this cited implementation. -/
theorem backend_interference_none_without_trigger :
    (generate_feedback "hello" "" ⟨85, 80, 75, 90⟩).vietnamese_interference = none := by
  have h : str_contains (str_lower "hello") "th" = false := by decide
  simp [generate_feedback, h]

/-- C2 (amended): the "always"-triggered final-consonant-deletion rule exists
only in the MCP phoneme-feedback tool: there, for every text — in particular
one with no triggering substring — the interference tip list contains that
rule and is therefore non-empty; the backend feedback advisor has no such
rule, and for a reference whose lowercasing lacks every triggering substring
(`"th"`) its `vietnamese_interference` is `None`. -/
theorem final_consonant_tip_unconditional_in_mcp_tool_only :
    ∀ (text reference_text transcription : String) (score : PronunciationScore),
      (mcp_final_consonants_pattern ∈ (get_phoneme_feedback_tool text).vietnamese_specific_tips ∧
       (get_phoneme_feedback_tool text).vietnamese_specific_tips ≠ []) ∧
      (str_contains (str_lower reference_text) "th" = false →
        (generate_feedback reference_text transcription score).vietnamese_interference = none) := by
  intro text reference_text transcription score
  refine ⟨⟨?_, ?_⟩, fun h => ?_⟩
  · simp [get_phoneme_feedback_tool, mcp_relevant_tips]
  · simp [get_phoneme_feedback_tool, mcp_relevant_tips]
  · simp [generate_feedback, h]

/-- Witness for C2's amended theorem at the text `"hello"`. -/
theorem final_consonant_tip_unconditional_in_mcp_tool_only_witness :
    str_contains (str_lower "hello") "th" = false ∧
    (mcp_final_consonants_pattern ∈ (get_phoneme_feedback_tool "hello").vietnamese_specific_tips ∧
     (get_phoneme_feedback_tool "hello").vietnamese_specific_tips ≠ []) ∧
    (generate_feedback "hello" "" ⟨85, 80, 75, 90⟩).vietnamese_interference = none :=
  ⟨by decide,
   (final_consonant_tip_unconditional_in_mcp_tool_only "hello" "hello" "" ⟨85, 80, 75, 90⟩).1,
   (final_consonant_tip_unconditional_in_mcp_tool_only "hello" "hello" "" ⟨85, 80, 75, 90⟩).2
     (by decide)⟩

/-! ## C6: the "th" interference tip -/

/-- C6: for every reference text whose lowercasing contains `"th"`, the
backend feedback has a non-`None` `vietnamese_interference` list containing
the interdental-fricative tip, and the MCP phoneme-feedback tool's tip list
contains the interdental-fricative rule. -/
theorem feedback_th_reference_includes_interdental_tip :
    ∀ (reference_text transcription : String) (score : PronunciationScore),
      str_contains (str_lower reference_text) "th" = true →
        ((∃ l, (generate_feedback reference_text transcription score).vietnamese_interference =
            some l ∧ vietnamese_issue_th ∈ l) ∧
         mcp_th_pattern ∈ (get_phoneme_feedback_tool reference_text).vietnamese_specific_tips) := by
  intro ref tr score h
  constructor
  · refine ⟨[vietnamese_issue_th], ?_, by simp⟩
    simp [generate_feedback, h]
  · simp [get_phoneme_feedback_tool, mcp_relevant_tips, h]

/-- Witness for C6 at the concrete reference `"the cat"`. -/
theorem feedback_th_reference_includes_interdental_tip_witness :
    str_contains (str_lower "the cat") "th" = true ∧
    ((∃ l, (generate_feedback "the cat" "" ⟨85, 80, 75, 90⟩).vietnamese_interference =
        some l ∧ vietnamese_issue_th ∈ l) ∧
     mcp_th_pattern ∈ (get_phoneme_feedback_tool "the cat").vietnamese_specific_tips) :=
  ⟨by decide, feedback_th_reference_includes_interdental_tip "the cat" "" ⟨85, 80, 75, 90⟩ (by decide)⟩


/-! ## The DP table computes the Levenshtein distance -/

/-- Regrouping identity for the nested minima arising in the snoc
recurrence. -/
theorem min_nine_regroup (t1 t2 t3 t4 t5 t6 t7 t8 t9 : ℕ) :
    1 + min (1 + min t1 (min t4 t5)) (min (1 + min t2 (min t6 t7)) (1 + min t3 (min t8 t9))) =
    1 + min (1 + min t1 (min t2 t3)) (min (1 + min t4 (min t6 t8)) (1 + min t5 (min t7 t9))) := by
  apply congrArg (1 + ·)
  apply le_antisymm
  · simp only [le_min_iff, min_le_iff]
    omega
  · simp only [le_min_iff, min_le_iff]
    omega

/-- Commuting the three-way minimum of the edit-distance recurrence. -/
theorem min_three_regroup (u v w : ℕ) : 1 + min u (min v w) = 1 + min w (min v u) := by
  omega

/-- Removing the last element of each list satisfies the same recurrence as
removing the first: the key step for relating the prefix-indexed DP table to
the spec-side recursion. -/
theorem levenshteinDistance_snoc {α : Type*} [DecidableEq α] (a b : α) :
    ∀ xs ys : List α,
      levenshteinDistance (xs ++ [a]) (ys ++ [b]) =
        if a = b then levenshteinDistance xs ys
        else 1 + min (levenshteinDistance xs ys)
          (min (levenshteinDistance (xs ++ [a]) ys) (levenshteinDistance xs (ys ++ [b])))
  | [], [] => by
    simp only [List.nil_append]
    rw [levenshteinDistance_cons_cons]
  | [], y :: ys => by
    have IH := levenshteinDistance_snoc a b [] ys
    simp only [List.nil_append] at IH
    simp only [List.nil_append, List.cons_append]
    rw [levenshteinDistance_cons_cons a y [] (ys ++ [b]),
        levenshteinDistance_cons_cons a y [] ys, IH]
    simp only [levenshteinDistance_nil_left, List.length_append, List.length_cons,
      List.length_nil]
    clear IH
    generalize levenshteinDistance [a] ys = M
    split_ifs <;> omega
  | x :: xs, [] => by
    have IH := levenshteinDistance_snoc a b xs []
    simp only [List.nil_append] at IH
    simp only [List.cons_append, List.nil_append]
    rw [levenshteinDistance_cons_cons x b (xs ++ [a]) [],
        levenshteinDistance_cons_cons x b xs [], IH]
    simp only [levenshteinDistance_nil_right, List.length_append, List.length_cons,
      List.length_nil]
    clear IH
    generalize levenshteinDistance xs [b] = M
    split_ifs <;> omega
  | x :: xs, y :: ys => by
    have IH1 := levenshteinDistance_snoc a b xs ys
    have IH2 := levenshteinDistance_snoc a b (x :: xs) ys
    have IH3 := levenshteinDistance_snoc a b xs (y :: ys)
    simp only [List.cons_append] at IH2 IH3 ⊢
    rw [levenshteinDistance_cons_cons x y (xs ++ [a]) (ys ++ [b]), IH1, IH2, IH3,
        levenshteinDistance_cons_cons x y xs ys,
        levenshteinDistance_cons_cons x y (xs ++ [a]) ys,
        levenshteinDistance_cons_cons x y xs (ys ++ [b])]
    clear IH1 IH2 IH3
    generalize levenshteinDistance xs ys = t1
    generalize levenshteinDistance (x :: xs) ys = t2
    generalize levenshteinDistance xs (y :: ys) = t3
    generalize levenshteinDistance (xs ++ [a]) ys = t4
    generalize levenshteinDistance xs (ys ++ [b]) = t5
    generalize levenshteinDistance (x :: (xs ++ [a])) ys = t6
    generalize levenshteinDistance (x :: xs) (ys ++ [b]) = t7
    generalize levenshteinDistance (xs ++ [a]) (y :: ys) = t8
    generalize levenshteinDistance xs (y :: (ys ++ [b])) = t9
    split_ifs <;> first
      | rfl
      | exact min_nine_regroup t1 t2 t3 t4 t5 t6 t7 t8 t9
termination_by xs ys => xs.length + ys.length
decreasing_by all_goals simp_arith

/-- The Levenshtein distance is invariant under reversing both sequences. -/
theorem levenshteinDistance_reverse {α : Type*} [DecidableEq α] :
    ∀ xs ys : List α,
      levenshteinDistance xs.reverse ys.reverse = levenshteinDistance xs ys
  | [], ys => by simp [levenshteinDistance_nil_left]
  | x :: xs, [] => by simp [levenshteinDistance_nil_right]
  | x :: xs, y :: ys => by
    have IH1 := levenshteinDistance_reverse xs ys
    have IH2 := levenshteinDistance_reverse (x :: xs) ys
    have IH3 := levenshteinDistance_reverse xs (y :: ys)
    simp only [List.reverse_cons] at IH2 IH3
    rw [List.reverse_cons, List.reverse_cons,
        levenshteinDistance_snoc x y xs.reverse ys.reverse, IH1, IH2, IH3,
        levenshteinDistance_cons_cons]
termination_by xs ys => xs.length + ys.length
decreasing_by all_goals simp_arith

/-- The DP table entry `dp[i][j]` is the Levenshtein distance between the
reversed `i`- and `j`-prefixes. -/
theorem wer_dp_eq_levenshtein (refW hypW : List String) :
    ∀ i j, i ≤ refW.length → j ≤ hypW.length →
      wer_dp refW hypW i j =
        levenshteinDistance ((refW.take i).reverse) ((hypW.take j).reverse)
  | 0, j, _, hj => by
    simp [wer_dp_zero_left, levenshteinDistance_nil_left, Nat.min_eq_left hj]
  | i + 1, 0, hi, _ => by
    simp [wer_dp_zero_right, levenshteinDistance_nil_right, Nat.min_eq_left hi]
  | i + 1, j + 1, hi, hj => by
    have hi' : i < refW.length := hi
    have hj' : j < hypW.length := hj
    have e1 : (refW.take (i + 1)).reverse = refW[i] :: (refW.take i).reverse := by
      rw [List.take_succ, List.getElem?_eq_getElem hi']
      simp
    have e2 : (hypW.take (j + 1)).reverse = hypW[j] :: (hypW.take j).reverse := by
      rw [List.take_succ, List.getElem?_eq_getElem hj']
      simp
    rw [wer_dp_succ_succ, List.getD_eq_getElem refW "" hi', List.getD_eq_getElem hypW "" hj',
        wer_dp_eq_levenshtein refW hypW i j (le_of_lt hi') (le_of_lt hj'),
        wer_dp_eq_levenshtein refW hypW i (j + 1) (le_of_lt hi') hj,
        wer_dp_eq_levenshtein refW hypW (i + 1) j hi (le_of_lt hj'),
        e1, e2, levenshteinDistance_cons_cons]
    generalize levenshteinDistance ((refW.take i).reverse) ((hypW.take j).reverse) = t1
    generalize levenshteinDistance (refW[i] :: (refW.take i).reverse) ((hypW.take j).reverse) = t2
    generalize levenshteinDistance ((refW.take i).reverse) (hypW[j] :: (hypW.take j).reverse) = t3
    split_ifs
    · rfl
    · exact min_three_regroup t3 t2 t1
termination_by i j => i + j
decreasing_by all_goals simp_arith

/-- On the full lengths, the DP table yields the Levenshtein distance of the
two token lists. -/
theorem wer_dp_full (refW hypW : List String) :
    wer_dp refW hypW refW.length hypW.length = levenshteinDistance refW hypW := by
  rw [wer_dp_eq_levenshtein refW hypW refW.length hypW.length le_rfl le_rfl]
  simp [levenshteinDistance_reverse]

/-! ## C3: word error rate equals the pooled Levenshtein ratio -/

/-- Casts commute with the summed map. -/
theorem list_sum_natCast_map {α : Type*} (f : α → ℕ) (l : List α) :
    (l.map fun x => ((f x : ℕ) : ℚ)).sum = (((l.map f).sum : ℕ) : ℚ) := by
  induction l with
  | nil => simp
  | cons x t ih => simp [ih]

/-- The word-error-rate accumulators are the pooled sums. -/
theorem wer_totals_eq (hypotheses references : List String) :
    wer_totals hypotheses references =
      (((((hypotheses.zip references).map fun hr =>
            levenshteinDistance (tokenize hr.2) (tokenize hr.1)).sum : ℕ) : ℚ),
       (((hypotheses.zip references).map fun hr => (tokenize hr.2).length).sum : ℕ)) := by
  unfold wer_totals
  rw [foldl_pair_sum
      (fun hr : String × String =>
        ((wer_dp (tokenize hr.2) (tokenize hr.1) (tokenize hr.2).length (tokenize hr.1).length : ℕ) : ℚ))
      (fun hr : String × String => (tokenize hr.2).length)]
  simp only [zero_add, wer_dp_full, list_sum_natCast_map]

/-- `calculate_word_error_rate` coincides with the spec-side pooled ratio. -/
theorem calculate_word_error_rate_eq_spec (hypotheses references : List String) :
    calculate_word_error_rate hypotheses references = wordErrorRate_spec hypotheses references := by
  unfold calculate_word_error_rate wordErrorRate_spec
  rw [wer_totals_eq]
  dsimp only
  rcases Nat.eq_zero_or_pos
      (((hypotheses.zip references).map fun hr => (tokenize hr.2).length).sum) with h | h
  · simp [h]
  · rw [if_pos h, if_neg (Nat.pos_iff_ne_zero.mp h)]

/-- C3: the word error rate is the pooled sum of per-pair unit-cost
Levenshtein distances over lowercased whitespace tokens, divided by the
pooled reference word count, with `0` when that count is `0` (the `0` case is
part of `wordErrorRate_spec`). -/
theorem wer_is_pooled_levenshtein_ratio :
    ∀ hypotheses references : List String,
      calculate_word_error_rate hypotheses references = wordErrorRate_spec hypotheses references :=
  calculate_word_error_rate_eq_spec

/-! ## C4: phoneme accuracy -/

/-- Taking `min` of the lengths before zipping is the same as zipping. -/
theorem zip_take_min {α β : Type*} (a : List α) (b : List β) :
    (a.take (min a.length b.length)).zip (b.take (min a.length b.length)) = a.zip b := by
  induction a generalizing b with
  | nil => simp
  | cons x xs ih =>
    cases b with
    | nil => simp
    | cons y ys =>
      simp only [List.length_cons, Nat.succ_min_succ, List.take_succ_cons, List.zip_cons_cons,
        ih]

/-- The phoneme-accuracy accumulators are the pooled sums. -/
theorem pa_totals_eq (predicted ground_truth : List (List String)) :
    pa_totals predicted ground_truth =
      (((predicted.zip ground_truth).map fun pg =>
          (pg.1.zip pg.2).countP fun x => decide (x.1 = x.2)).sum,
       ((predicted.zip ground_truth).map fun pg => pg.2.length).sum) := by
  unfold pa_totals
  rw [foldl_pair_sum
      (fun pg : List String × List String =>
        ((pg.1.take (min pg.1.length pg.2.length)).zip
          (pg.2.take (min pg.1.length pg.2.length))).countP fun x => decide (x.1 = x.2))
      (fun pg : List String × List String => pg.2.length)]
  simp only [zero_add, zip_take_min]

/-- `calculate_phoneme_accuracy` coincides with the spec-side ratio. -/
theorem calculate_phoneme_accuracy_eq_spec (predicted ground_truth : List (List String)) :
    calculate_phoneme_accuracy predicted ground_truth =
      phonemeAccuracy_spec predicted ground_truth := by
  unfold calculate_phoneme_accuracy phonemeAccuracy_spec
  rw [pa_totals_eq]
  dsimp only
  rcases Nat.eq_zero_or_pos
      (((predicted.zip ground_truth).map fun pg => pg.2.length).sum) with h | h
  · simp [h]
  · rw [if_pos h, if_neg (Nat.pos_iff_ne_zero.mp h)]

/-- C4: phoneme accuracy counts positional matches over the first
`min(len(pred), len(gt))` positions of each pair (no alignment), pools the
full ground-truth lengths into the denominator, and returns `correct/total`
(`0` when `total = 0`); on the spec's example it is `2/3`. -/
theorem phoneme_accuracy_truncation_and_ratio :
    (∀ predicted ground_truth : List (List String),
      calculate_phoneme_accuracy predicted ground_truth =
        phonemeAccuracy_spec predicted ground_truth) ∧
    calculate_phoneme_accuracy [["P", "AE"]] [["P", "AE", "T"]] = 2 / 3 := by
  refine ⟨calculate_phoneme_accuracy_eq_spec, ?_⟩
  rw [calculate_phoneme_accuracy_eq_spec]
  unfold phonemeAccuracy_spec
  norm_num [List.zip_cons_cons, List.countP_cons]

/-! ## C8: permutation invariance of the corpus metrics -/

/-- Zipping the projections of a pair list recovers the pair list. -/
theorem zip_map_fst_snd_self {α β : Type*} (l : List (α × β)) :
    (l.map Prod.fst).zip (l.map Prod.snd) = l := by
  induction l with
  | nil => simp
  | cons x t ih => simp [ih]

/-- C8: applying the same permutation to the (hypothesis, reference) pairs
and to the (predicted, groundTruth) phoneme pairs leaves `wordErrorRate` and
`phonemeAccuracy` unchanged: utterance order does not affect the corpus-level
aggregates. -/
theorem corpus_metrics_permutation_invariant :
    ∀ (wp wp' : List (String × String)) (pp pp' : List (List String × List String)),
      wp.Perm wp' → pp.Perm pp' →
      (calculate_word_error_rate (wp.map Prod.fst) (wp.map Prod.snd) =
        calculate_word_error_rate (wp'.map Prod.fst) (wp'.map Prod.snd) ∧
       calculate_phoneme_accuracy (pp.map Prod.fst) (pp.map Prod.snd) =
        calculate_phoneme_accuracy (pp'.map Prod.fst) (pp'.map Prod.snd)) := by
  intro wp wp' pp pp' hw hp
  constructor
  · rw [calculate_word_error_rate_eq_spec, calculate_word_error_rate_eq_spec]
    unfold wordErrorRate_spec
    rw [zip_map_fst_snd_self, zip_map_fst_snd_self,
        (hw.map fun hr => levenshteinDistance (tokenize hr.2) (tokenize hr.1)).sum_eq,
        (hw.map fun hr => (tokenize hr.2).length).sum_eq]
  · rw [calculate_phoneme_accuracy_eq_spec, calculate_phoneme_accuracy_eq_spec]
    unfold phonemeAccuracy_spec
    rw [zip_map_fst_snd_self, zip_map_fst_snd_self,
        (hp.map fun pg => (pg.1.zip pg.2).countP fun x => decide (x.1 = x.2)).sum_eq,
        (hp.map fun pg => pg.2.length).sum_eq]

/-- Witness for C8 on a two-element corpus and its swap. -/
theorem corpus_metrics_permutation_invariant_witness :
    ([("a b", "a c"), ("d", "d e")] : List (String × String)).Perm
      [("d", "d e"), ("a b", "a c")] ∧
    ([(["P"], ["P", "T"]), (["A"], ["B"])] : List (List String × List String)).Perm
      [(["A"], ["B"]), (["P"], ["P", "T"])] ∧
    (calculate_word_error_rate
        (([("a b", "a c"), ("d", "d e")] : List (String × String)).map Prod.fst)
        (([("a b", "a c"), ("d", "d e")] : List (String × String)).map Prod.snd) =
      calculate_word_error_rate
        (([("d", "d e"), ("a b", "a c")] : List (String × String)).map Prod.fst)
        (([("d", "d e"), ("a b", "a c")] : List (String × String)).map Prod.snd) ∧
     calculate_phoneme_accuracy
        (([(["P"], ["P", "T"]), (["A"], ["B"])] : List (List String × List String)).map Prod.fst)
        (([(["P"], ["P", "T"]), (["A"], ["B"])] : List (List String × List String)).map Prod.snd) =
      calculate_phoneme_accuracy
        (([(["A"], ["B"]), (["P"], ["P", "T"])] : List (List String × List String)).map Prod.fst)
        (([(["A"], ["B"]), (["P"], ["P", "T"])] : List (List String × List String)).map Prod.snd)) :=
  ⟨List.Perm.swap _ _ _, List.Perm.swap _ _ _,
   corpus_metrics_permutation_invariant _ _ _ _ (List.Perm.swap _ _ _) (List.Perm.swap _ _ _)⟩

/-! ## C1: degenerate inputs to the GOP metrics -/

/-- A list whose elements are all equal to `c` sums to `length • c`. -/
theorem list_sum_of_const {l : List ℚ} {c : ℚ} (h : ∀ x ∈ l, x = c) :
    l.sum = (l.length : ℚ) * c := by
  induction l with
  | nil => simp
  | cons x t ih =>
    simp only [List.sum_cons, List.length_cons]
    rw [h x (List.mem_cons_self x t), ih fun y hy => h y (List.mem_cons_of_mem x hy)]
    push_cast
    ring

/-- A constant array has zero variance sum. -/
theorem variance_sum_zero_of_const (l : List ℚ) (h : IsConstantList l) :
    (l.map fun x => (x - l.sum / (l.length : ℚ)) ^ 2).sum = 0 := by
  cases l with
  | nil => simp
  | cons a t =>
    have hc : ∀ x ∈ a :: t, x = a := fun x hx => h x hx a (List.mem_cons_self a t)
    have hlen : ((a :: t).length : ℚ) ≠ 0 := by
      simp only [List.length_cons]
      push_cast
      positivity
    have hmean : (a :: t).sum / (((a :: t).length : ℕ) : ℚ) = a := by
      rw [list_sum_of_const hc]
      field_simp
    apply List.sum_eq_zero
    intro x hx
    obtain ⟨y, hy, rfl⟩ := List.mem_map.mp hx
    rw [hmean, hc y hy]
    ring

/-- An array with fewer than 2 points is constant. -/
theorem short_is_constant (l : List ℚ) (h : l.length < 2) : IsConstantList l := by
  cases l with
  | nil => intro a ha; simp at ha
  | cons x t =>
    cases t with
    | nil =>
      intro a ha b hb
      simp only [List.mem_singleton] at ha hb
      rw [ha, hb]
    | cons y u => simp at h; omega

/-- C1 (amended): on every pair of equal-length degenerate inputs (fewer than
2 points, or either array constant) `calculate_gop_metrics` still returns a
metrics record — no error is raised — and the correlation field of that
record is NaN (`none`): no numeric value, in particular not `0`, is produced
for the correlation. -/
theorem gop_degenerate_returns_nan_correlation :
    ∀ xs ys : List ℚ, xs.length = ys.length →
      (xs.length < 2 ∨ IsConstantList xs ∨ IsConstantList ys) →
      (calculate_gop_metrics xs ys).correlation = none := by
  intro xs ys _ hdeg
  have hconst : IsConstantList xs ∨ IsConstantList ys := by
    rcases hdeg with h | h | h
    · exact Or.inl (short_is_constant xs h)
    · exact Or.inl h
    · exact Or.inr h
  show corr_rep xs ys = none
  unfold corr_rep
  rcases hconst with h | h
  · simp [variance_sum_zero_of_const xs h]
  · simp [variance_sum_zero_of_const ys h]

/-- Witness for C1's amended theorem at the constant input
`predicted = [1, 1]`, `groundTruth = [2, 3]`. -/
theorem gop_degenerate_returns_nan_correlation_witness :
    ([1, 1] : List ℚ).length = ([2, 3] : List ℚ).length ∧
    (([1, 1] : List ℚ).length < 2 ∨ IsConstantList [1, 1] ∨ IsConstantList [2, 3]) ∧
    (calculate_gop_metrics [1, 1] [2, 3]).correlation = none :=
  ⟨rfl, Or.inr (Or.inl (by simp [IsConstantList])),
   gop_degenerate_returns_nan_correlation [1, 1] [2, 3] rfl
     (Or.inr (Or.inl (by simp [IsConstantList])))⟩

/-- C1 (counterexample to the claim as stated): at the degenerate input
`predicted = [1, 1]` (constant, length 2), `groundTruth = [2, 3]`, the GOP
metrics computation does not fail: it returns a concrete result record whose
correlation is NaN (`none`) and whose MAE and squared RMSE are `3/2` and
`5/2`. -/
theorem gop_degenerate_counterexample :
    calculate_gop_metrics [1, 1] [2, 3] =
      { correlation := none, mae := some (3 / 2), rmse_sq := some (5 / 2) } := by
  unfold calculate_gop_metrics corr_rep npMean
  norm_num [List.zip_cons_cons]

/-! ## C5: score synthesis bounds -/

/-- At an exact half, ordinary rounding rounds up. -/
theorem round_tie (q : ℚ) (h : q - ⌊q⌋ = 1 / 2) : round q = ⌊q⌋ + 1 := by
  rw [round_eq]
  have hq : q + 1 / 2 = ((⌊q⌋ + 1 : ℤ) : ℚ) := by push_cast; linarith
  rw [hq, Int.floor_intCast]

/-- Banker's rounding never exceeds round-half-up. -/
theorem py_round_le_round (q : ℚ) : py_round q ≤ round q := by
  unfold py_round
  split_ifs with h1 h2
  · rw [round_tie q h1]; omega
  · rw [round_tie q h1]
  · exact le_rfl

/-- Banker's rounding is at most one below round-half-up. -/
theorem round_le_py_round_add_one (q : ℚ) : round q ≤ py_round q + 1 := by
  unfold py_round
  split_ifs with h1 h2
  · rw [round_tie q h1]
  · rw [round_tie q h1]; omega
  · omega

/-- Banker's rounding is monotone. -/
theorem py_round_mono {x y : ℚ} (h : x ≤ y) : py_round x ≤ py_round y := by
  have hrxy : round x ≤ round y := by
    rw [round_eq, round_eq]
    exact Int.floor_le_floor (by linarith)
  have h1 := py_round_le_round x
  have h2 := round_le_py_round_add_one y
  rcases lt_or_eq_of_le hrxy with hlt | heq
  · omega
  · by_cases hpy : py_round y = round y
    · omega
    · by_cases ht : y - ⌊y⌋ = 1 / 2
      · by_cases he : 2 ∣ ⌊y⌋
        · have hry : round y = ⌊y⌋ + 1 := round_tie y ht
          have hfx : ⌊x + 1 / 2⌋ = ⌊y⌋ + 1 := by
            rw [← round_eq, heq, hry]
          have hxq : ((⌊y⌋ + 1 : ℤ) : ℚ) ≤ x + 1 / 2 := by
            rw [← hfx]
            exact Int.floor_le _
          have hyx : y ≤ x := by
            push_cast at hxq
            linarith
          obtain rfl : x = y := le_antisymm h hyx
          exact le_rfl
        · unfold py_round at hpy
          rw [if_pos ht, if_neg he] at hpy
          have := round_tie y ht
          omega
      · unfold py_round at hpy
        rw [if_neg ht] at hpy
        exact absurd rfl hpy

/-- Rounding to one decimal place is monotone. -/
theorem py_round1_mono {x y : ℚ} (h : x ≤ y) : py_round1 x ≤ py_round1 y := by
  unfold py_round1
  have hm := py_round_mono (show 10 * x ≤ 10 * y by linarith)
  have hc : ((py_round (10 * x) : ℤ) : ℚ) ≤ ((py_round (10 * y) : ℤ) : ℚ) := by
    exact_mod_cast hm
  linarith

/-- Banker's rounding fixes the integers. -/
theorem py_round_intCast (n : ℤ) : py_round ((n : ℤ) : ℚ) = n := by
  unfold py_round
  rw [if_neg, round_intCast]
  simp [Int.floor_intCast]

/-- One-decimal rounding fixes the integers. -/
theorem py_round1_intCast (n : ℤ) : py_round1 ((n : ℤ) : ℚ) = ((n : ℤ) : ℚ) := by
  unfold py_round1
  have h : (10 : ℚ) * ((n : ℤ) : ℚ) = ((10 * n : ℤ) : ℚ) := by push_cast; ring
  rw [h, py_round_intCast]
  push_cast
  ring

/-- C5: for every similarity ratio `s ∈ [0, 1]`, the four synthesized scores
follow the formulas `overall = round(s*100, 1)`,
`accuracy = round((s*100)*0.95, 1)`, `fluency = round((s*100)*0.9, 1)`,
`completeness = round(s*100, 1)`, all lie in `[0, 100]`, and
`accuracy ≤ overall`, `fluency ≤ overall`. -/
theorem calculate_scores_formulas_and_bounds :
    ∀ s : ℚ, 0 ≤ s → s ≤ 1 →
      ((calculate_scores s).overall = py_round1 (s * 100) ∧
       (calculate_scores s).accuracy = py_round1 (s * 100 * 0.95) ∧
       (calculate_scores s).fluency = py_round1 (s * 100 * 0.9) ∧
       (calculate_scores s).completeness = py_round1 (s * 100)) ∧
      (0 ≤ (calculate_scores s).overall ∧ (calculate_scores s).overall ≤ 100) ∧
      (0 ≤ (calculate_scores s).accuracy ∧ (calculate_scores s).accuracy ≤ 100) ∧
      (0 ≤ (calculate_scores s).fluency ∧ (calculate_scores s).fluency ≤ 100) ∧
      (0 ≤ (calculate_scores s).completeness ∧ (calculate_scores s).completeness ≤ 100) ∧
      (calculate_scores s).accuracy ≤ (calculate_scores s).overall ∧
      (calculate_scores s).fluency ≤ (calculate_scores s).overall := by
  intro s h0 h1
  have e0 : py_round1 (0 : ℚ) = 0 := by
    have := py_round1_intCast 0
    norm_num at this
    exact this
  have e100 : py_round1 (100 : ℚ) = 100 := by
    have := py_round1_intCast 100
    norm_num at this
    exact this
  have hov0 : 0 ≤ py_round1 (s * 100) := by
    rw [← e0]
    exact py_round1_mono (by nlinarith)
  have hov100 : py_round1 (s * 100) ≤ 100 := by
    rw [← e100]
    exact py_round1_mono (by nlinarith)
  have hacc0 : 0 ≤ py_round1 (s * 100 * 0.95) := by
    rw [← e0]
    exact py_round1_mono (by nlinarith)
  have hflu0 : 0 ≤ py_round1 (s * 100 * 0.9) := by
    rw [← e0]
    exact py_round1_mono (by nlinarith)
  have haccov : py_round1 (s * 100 * 0.95) ≤ py_round1 (s * 100) := by
    exact py_round1_mono (by nlinarith)
  have hfluov : py_round1 (s * 100 * 0.9) ≤ py_round1 (s * 100) := by
    exact py_round1_mono (by nlinarith)
  unfold calculate_scores
  refine ⟨⟨rfl, rfl, rfl, rfl⟩, ⟨hov0, hov100⟩, ⟨hacc0, le_trans haccov hov100⟩,
    ⟨hflu0, le_trans hfluov hov100⟩, ⟨hov0, hov100⟩, haccov, hfluov⟩

/-- Witness for C5 at `s = 1/2`. -/
theorem calculate_scores_formulas_and_bounds_witness :
    (0 : ℚ) ≤ 1 / 2 ∧ (1 / 2 : ℚ) ≤ 1 ∧
      (((calculate_scores (1 / 2)).overall = py_round1 (1 / 2 * 100) ∧
        (calculate_scores (1 / 2)).accuracy = py_round1 (1 / 2 * 100 * 0.95) ∧
        (calculate_scores (1 / 2)).fluency = py_round1 (1 / 2 * 100 * 0.9) ∧
        (calculate_scores (1 / 2)).completeness = py_round1 (1 / 2 * 100)) ∧
       (0 ≤ (calculate_scores (1 / 2)).overall ∧ (calculate_scores (1 / 2)).overall ≤ 100) ∧
       (0 ≤ (calculate_scores (1 / 2)).accuracy ∧ (calculate_scores (1 / 2)).accuracy ≤ 100) ∧
       (0 ≤ (calculate_scores (1 / 2)).fluency ∧ (calculate_scores (1 / 2)).fluency ≤ 100) ∧
       (0 ≤ (calculate_scores (1 / 2)).completeness ∧
        (calculate_scores (1 / 2)).completeness ≤ 100) ∧
       (calculate_scores (1 / 2)).accuracy ≤ (calculate_scores (1 / 2)).overall ∧
       (calculate_scores (1 / 2)).fluency ≤ (calculate_scores (1 / 2)).overall) :=
  ⟨by norm_num, by norm_num,
   calculate_scores_formulas_and_bounds (1 / 2) (by norm_num) (by norm_num)⟩

/-! ## C7: error-pattern mining and top-10 ranking -/

/-- Bumping a key increments exactly that key's count. -/
theorem lookup_count_bump (l : List (String × ℕ)) (k k' : String) :
    lookup_count (bump l k) k' = lookup_count l k' + if k = k' then 1 else 0 := by
  induction l with
  | nil =>
    by_cases h : k = k' <;> simp [bump, lookup_count, h]
  | cons p t ih =>
    obtain ⟨a, c⟩ := p
    by_cases hak : a = k
    · subst hak
      by_cases hk' : a = k' <;> simp [bump, lookup_count, hk']
    · by_cases hk' : a = k'
      · subst hk'
        have hne : ¬k = a := fun h => hak h.symm
        simp [bump, lookup_count, hak, hne]
      · simp [bump, lookup_count, hak, hk', ih]

/-- The inner loop over one utterance adds its mismatch count for each key. -/
theorem lookup_count_position_fold (k : String) :
    ∀ (ps : List (String × String)) (acc : List (String × ℕ)),
      lookup_count
          (ps.foldl (fun acc2 x => if x.1 ≠ x.2 then bump acc2 (error_key x.2 x.1) else acc2) acc)
          k =
        lookup_count acc k + ps.countP fun x => decide (x.1 ≠ x.2 ∧ error_key x.2 x.1 = k)
  | [], acc => by simp
  | x :: t, acc => by
    rw [List.foldl_cons, lookup_count_position_fold k t _, List.countP_cons]
    by_cases hne : x.1 = x.2
    · simp [hne]
    · rw [if_pos hne, lookup_count_bump]
      by_cases hk : error_key x.2 x.1 = k
      · simp [hne, hk]
        omega
      · simp [hne, hk]

/-- The outer loop over the corpus adds the per-utterance mismatch counts. -/
theorem lookup_count_tally_fold (k : String) :
    ∀ (pairs : List (List String × List String)) (acc : List (String × ℕ)),
      lookup_count
          (pairs.foldl
            (fun acc pg =>
              (pg.1.zip pg.2).foldl
                (fun acc2 x => if x.1 ≠ x.2 then bump acc2 (error_key x.2 x.1) else acc2) acc)
            acc)
          k =
        lookup_count acc k +
          (pairs.map fun pg =>
            (pg.1.zip pg.2).countP fun x => decide (x.1 ≠ x.2 ∧ error_key x.2 x.1 = k)).sum
  | [], acc => by simp
  | pg :: t, acc => by
    rw [List.foldl_cons, lookup_count_tally_fold k t _, lookup_count_position_fold k _ acc,
        List.map_cons, List.sum_cons]
    omega

/-- The tally holds, for every key, the number of positional mismatches with
that confusion key across the corpus. -/
theorem lookup_count_tally (predictions ground_truths : List (List String)) (k : String) :
    lookup_count (phoneme_error_tally predictions ground_truths) k =
      mismatch_count predictions ground_truths k := by
  unfold phoneme_error_tally mismatch_count
  rw [lookup_count_tally_fold]
  simp [lookup_count]

/-- The descending-count comparator is transitive. -/
theorem count_desc_trans :
    ∀ a b c : String × ℕ, count_desc a b = true → count_desc b c = true →
      count_desc a c = true := by
  intro a b c hab hbc
  simp only [count_desc, decide_eq_true_eq] at *
  omega

/-- The descending-count comparator is total. -/
theorem count_desc_total : ∀ a b : String × ℕ, (count_desc a b || count_desc b a) = true := by
  intro a b
  simp only [count_desc, Bool.or_eq_true, decide_eq_true_eq]
  omega

/-- C7: the error-pattern miner counts, for each `(groundTruth, predicted)`
confusion key, the positional mismatches over the truncated common length,
and returns at most 10 entries, sorted by descending count, forming a
complete set of maximal-count entries, with equal-count entries kept in
first-seen (tally) order — the filtered top list is a prefix of the filtered
tally for every count value. -/
theorem error_analysis_top10_ranking :
    ∀ predictions ground_truths : List (List String),
      (generate_error_analysis predictions ground_truths).top_phoneme_errors.length ≤ 10 ∧
      (generate_error_analysis predictions ground_truths).top_phoneme_errors.Pairwise
        (fun a b => b.2 ≤ a.2) ∧
      (∀ x ∈ phoneme_error_tally predictions ground_truths,
        x ∈ (generate_error_analysis predictions ground_truths).top_phoneme_errors ∨
          ∀ y ∈ (generate_error_analysis predictions ground_truths).top_phoneme_errors,
            x.2 ≤ y.2) ∧
      (∀ c : ℕ,
        (generate_error_analysis predictions ground_truths).top_phoneme_errors.filter
            (fun kv => decide (kv.2 = c)) <+:
          (phoneme_error_tally predictions ground_truths).filter fun kv => decide (kv.2 = c)) ∧
      (∀ k : String,
        lookup_count (phoneme_error_tally predictions ground_truths) k =
          mismatch_count predictions ground_truths k) := by
  intro preds gts
  have htop : (generate_error_analysis preds gts).top_phoneme_errors =
      ((phoneme_error_tally preds gts).mergeSort count_desc).take 10 := rfl
  have hsorted : ((phoneme_error_tally preds gts).mergeSort count_desc).Pairwise
      fun a b => count_desc a b = true :=
    List.sorted_mergeSort count_desc_trans count_desc_total _
  have hperm : ((phoneme_error_tally preds gts).mergeSort count_desc).Perm
      (phoneme_error_tally preds gts) :=
    List.mergeSort_perm _ count_desc
  refine ⟨?_, ?_, ?_, ?_, fun k => lookup_count_tally preds gts k⟩
  · rw [htop, List.length_take]
    omega
  · rw [htop]
    have hp := List.Pairwise.sublist (List.take_sublist 10 _) hsorted
    exact hp.imp fun h => by simpa [count_desc] using h
  · intro x hx
    by_cases hmem : x ∈ (generate_error_analysis preds gts).top_phoneme_errors
    · exact Or.inl hmem
    · refine Or.inr fun y hy => ?_
      rw [htop] at hmem hy
      have hx' : x ∈ (phoneme_error_tally preds gts).mergeSort count_desc :=
        List.mem_mergeSort.mpr hx
      rw [← List.take_append_drop 10 ((phoneme_error_tally preds gts).mergeSort count_desc)]
        at hx' hsorted
      rcases List.mem_append.mp hx' with h | h
      · exact absurd h hmem
      · have h3 := (List.pairwise_append.mp hsorted).2.2 y hy x h
        simpa [count_desc] using h3
  · intro c
    have hblock : ∀ x ∈ (phoneme_error_tally preds gts).filter fun kv => decide (kv.2 = c),
        x.2 = c := by
      intro x hx
      simpa using (List.mem_filter.mp hx).2
    have hsub : List.Sublist
        ((phoneme_error_tally preds gts).filter fun kv => decide (kv.2 = c))
        ((phoneme_error_tally preds gts).mergeSort count_desc) := by
      apply List.sublist_mergeSort count_desc_trans count_desc_total
      · exact List.pairwise_of_forall_mem_list fun x hx y hy => by
          simp [count_desc, hblock x hx, hblock y hy]
      · exact List.filter_sublist _
    have h1 : List.Sublist
        ((phoneme_error_tally preds gts).filter fun kv => decide (kv.2 = c))
        (((phoneme_error_tally preds gts).mergeSort count_desc).filter
          fun kv => decide (kv.2 = c)) := by
      have h0 := List.Sublist.filter (fun kv : String × ℕ => decide (kv.2 = c)) hsub
      rwa [List.filter_filter, show
        (fun a : String × ℕ => decide (a.2 = c) && decide (a.2 = c)) =
          fun a : String × ℕ => decide (a.2 = c) from funext fun a => Bool.and_self _] at h0
    have h2 : ((((phoneme_error_tally preds gts).mergeSort count_desc).filter
        fun kv => decide (kv.2 = c)).length) =
        (((phoneme_error_tally preds gts).filter fun kv => decide (kv.2 = c)).length) :=
      (List.Perm.filter _ hperm).length_eq
    have heq : (((phoneme_error_tally preds gts).mergeSort count_desc).filter
        fun kv => decide (kv.2 = c)) =
        ((phoneme_error_tally preds gts).filter fun kv => decide (kv.2 = c)) :=
      (h1.eq_of_length h2.symm).symm
    rw [htop, ← heq]
    exact List.IsPrefix.filter _ (List.take_prefix 10 _)

/-- Witness for C7 on the concrete one-utterance corpus
`predictions = [["t", "l"]]`, `ground_truths = [["th", "r"]]`. -/
theorem error_analysis_top10_ranking_witness :
    (generate_error_analysis [["t", "l"]] [["th", "r"]]).top_phoneme_errors.length ≤ 10 ∧
    (generate_error_analysis [["t", "l"]] [["th", "r"]]).top_phoneme_errors.Pairwise
      (fun a b => b.2 ≤ a.2) ∧
    (∀ x ∈ phoneme_error_tally [["t", "l"]] [["th", "r"]],
      x ∈ (generate_error_analysis [["t", "l"]] [["th", "r"]]).top_phoneme_errors ∨
        ∀ y ∈ (generate_error_analysis [["t", "l"]] [["th", "r"]]).top_phoneme_errors,
          x.2 ≤ y.2) ∧
    (∀ c : ℕ,
      (generate_error_analysis [["t", "l"]] [["th", "r"]]).top_phoneme_errors.filter
          (fun kv => decide (kv.2 = c)) <+:
        (phoneme_error_tally [["t", "l"]] [["th", "r"]]).filter fun kv => decide (kv.2 = c)) ∧
    (∀ k : String,
      lookup_count (phoneme_error_tally [["t", "l"]] [["th", "r"]]) k =
        mismatch_count [["t", "l"]] [["th", "r"]] k) :=
  error_analysis_top10_ranking [["t", "l"]] [["th", "r"]]
